import Mathlib

/-!
Shallow embedding of `Backend/main.py` (a FastAPI natural-language
task/reminder assistant) and proofs about it.

Modelling conventions:
* The MongoDB document store is modelled as an explicit `Store` value
  (lists of tasks and reminders plus fresh-id counters); every `async`
  handler becomes a pure function threading the `Store`.
* Python exceptions (`KeyError` from direct dict indexing, `ValueError`
  from `int()` coercion) become `Except PyErr`.
* Wall-clock time (`datetime.now(timezone.utc).timestamp() * 1000`,
  an epoch-milliseconds integer) is passed in explicitly as `now : Int`.
* The outbound HTTP call to the Gemini API is modelled by an abstract
  response value `CapResp` covering the outcome shapes the code
  distinguishes; the `json.dumps`/`json.loads` round trip between
  `gemini_tool_call` and `chat` is the identity and is elided.
-/

namespace TodoBackend

/-- Python exceptions that the handlers can raise and that `chat` does not
catch. -/
inductive PyErr where
  | keyError (k : String)
  | valueError
deriving DecidableEq, Repr

/-- A JSON scalar value as it arrives in the action `args` mapping from the
model. The code only ever feeds such a value to `int(...)` and to an
f-string, so integer and string payloads are the cases modelled. -/
inductive Val where
  | int (n : Int)
  | str (s : String)
deriving DecidableEq, Repr

/-- Python `str()` as used by the f-string replies. -/
def Val.pyStr : Val → String
  | .int n => toString n
  | .str s => s

/-- Python `int()` coercion on an args value: an integer passes through
unchanged; a string of an optional sign followed by digits parses; any
other string raises `ValueError`. -/
def pyInt : Val → Except PyErr Int
  | .int n => .ok n
  | .str s =>
    match s.toList with
    | [] => .error .valueError
    | c :: cs =>
      let digits? : List Char → Option Nat := fun l =>
        if l.isEmpty ∨ l.any (fun d => ¬ d.isDigit) then none
        else some (l.foldl (fun acc d => acc * 10 + (d.toNat - 48)) 0)
      if c = '-' then
        match digits? cs with
        | some n => .ok (-(n : Int))
        | none => .error .valueError
      else
        match digits? (c :: cs) with
        | some n => .ok (n : Int)
        | none => .error .valueError

/-- The action `args` dict, restricted to the keys the program reads
(`title`, `delay_minutes`, `reply`).  `none` models an absent key. -/
structure Args where
  title : Option String := none
  delay_minutes : Option Val := none
  reply : Option String := none
deriving DecidableEq, Repr

/-- A resolved action: the dict `{"name": ..., "args": ...}` that
`gemini_tool_call` serialises and `chat` parses back. -/
structure Action where
  name : String
  args : Args := {}
deriving DecidableEq, Repr

/-- A document of the `tasks` collection.  `id` models the store-assigned
unique `_id`. -/
structure Task where
  id : Nat
  title : String
  due : Option Int
  completed : Bool
deriving DecidableEq, Repr

/-- A document of the `reminders` collection.  `atMs` models the `at`
field (absolute epoch milliseconds); `at` is a reserved word in Lean. -/
structure Reminder where
  id : Nat
  title : String
  atMs : Int
  sent : Bool
deriving DecidableEq, Repr

/-- The document store: the two collections plus fresh-id counters
standing in for the unique `_id` assignment of the store. -/
structure Store where
  tasks : List Task
  reminders : List Reminder
  nextTaskId : Nat
  nextReminderId : Nat
deriving DecidableEq, Repr

/-- Checks that byte-for-byte `pat` occurs at the head of `hay`. -/
def isPrefixList (pat hay : List Char) : Bool :=
  match pat, hay with
  | [], _ => true
  | _ :: _, [] => false
  | a :: as, b :: bs => a == b && isPrefixList as bs

/-- Checks that `pat` occurs contiguously somewhere inside `hay`. -/
def isInfixList (pat : List Char) : List Char → Bool
  | [] => pat.isEmpty
  | c :: rest => isPrefixList pat (c :: rest) || isInfixList pat rest

/-- Lower-cases a character sequence (ASCII case folding, as the
case-insensitive regex option applies to the basic latin range). -/
def lowerChars (l : List Char) : List Char :=
  l.map Char.toLower

/-- The match predicate of `delete_one({"title": {"$regex": kw,
"$options": "i"}})`: for the keyword patterns in scope (no regex
metacharacters) a `$regex` filter with option `i` is exactly
case-insensitive substring containment of `kw` in the title. -/
def titleMatches (kw : String) (title : String) : Bool :=
  isInfixList (lowerChars kw.toList) (lowerChars title.toList)

/-- Removes the first element satisfying `p`, like Mongo `delete_one`
matching in natural (insertion) order. -/
def deleteFirst (p : α → Bool) : List α → List α
  | [] => []
  | x :: xs => if p x then xs else x :: deleteFirst p xs

/-- Reply f-string of `handle_add_task`. -/
def addedReply (t : String) : String :=
  "Task added: \"" ++ t ++ "\""

/-- Reply f-string of `handle_delete_task` when a document was deleted. -/
def deletedReply (kw : String) : String :=
  "Deleted task matching \x27" ++ kw ++ "\x27."

/-- Reply f-string of `handle_delete_task` when nothing matched. -/
def notFoundReply (kw : String) : String :=
  "Couldn\x27t find a task matching \x27" ++ kw ++ "\x27."

/-- Reply f-string of `handle_set_reminder`; it echoes the raw
(uncoerced) delay value. -/
def reminderReply (t : String) (dv : Val) : String :=
  "OK, I\x27ll remind you about \"" ++ t ++ "\" in " ++ Val.pyStr dv ++ " minutes."

/-- Handler `handle_add_task`: `args["title"]` is indexed directly
(`KeyError` when absent), a task `{title, due: None, completed: False}`
is inserted, and the reply echoes the title. -/
def handle_add_task (args : Args) (s : Store) : Except PyErr (String × Store) :=
  match args.title with
  | none => .error (.keyError "title")
  | some t =>
    .ok (addedReply t,
      { s with
        tasks := s.tasks ++ [{ id := s.nextTaskId, title := t, due := none, completed := false }],
        nextTaskId := s.nextTaskId + 1 })

/-- Handler `handle_delete_task`: `delete_one` with a case-insensitive
regex on the title removes the first matching task; the reply depends on
`deleted_count`. -/
def handle_delete_task (args : Args) (s : Store) : Except PyErr (String × Store) :=
  match args.title with
  | none => .error (.keyError "title")
  | some kw =>
    if s.tasks.any (fun t => titleMatches kw t.title) then
      .ok (deletedReply kw,
        { s with tasks := deleteFirst (fun t => titleMatches kw t.title) s.tasks })
    else
      .ok (notFoundReply kw, s)

/-- Handler `handle_set_reminder`: evaluation order follows the source —
`int(args["delay_minutes"])` first (so a missing delay raises before a
missing title is noticed), then `args["title"]`; the reminder is inserted
with `at = now + delay * 60000` and `sent = False`, and the f-string
reply echoes the raw (uncoerced) delay value. -/
def handle_set_reminder (now : Int) (args : Args) (s : Store) :
    Except PyErr (String × Store) :=
  match args.delay_minutes with
  | none => .error (.keyError "delay_minutes")
  | some dv =>
    match pyInt dv with
    | .error e => .error e
    | .ok d =>
      match args.title with
      | none => .error (.keyError "title")
      | some t =>
        .ok (reminderReply t dv,
          { s with
            reminders := s.reminders ++
              [{ id := s.nextReminderId, title := t, atMs := now + d * 60000, sent := false }],
            nextReminderId := s.nextReminderId + 1 })

/-- The `tool_handlers` dispatch dict.  All handlers are given the
uniform shape `now → args → store → result`; the two time-independent
handlers ignore `now`. -/
def tool_handlers : List (String × (Int → Args → Store → Except PyErr (String × Store))) :=
  [("addTask", fun _ => handle_add_task),
   ("deleteTask", fun _ => handle_delete_task),
   ("setReminder", handle_set_reminder)]

/-- One entry of the `tools` catalog sent to Gemini: name, description,
declared parameter properties and required-argument list. -/
structure ToolDecl where
  name : String
  description : String
  properties : List String
  required : List String
deriving DecidableEq, Repr

/-- The `tools` list: the static action schema. -/
def tools : List ToolDecl :=
  [{ name := "addTask",
     description := "Add a new task to the user\x27s to-do list.",
     properties := ["title"],
     required := ["title"] },
   { name := "deleteTask",
     description := "Delete a task from the user\x27s list based on its title or keywords.",
     properties := ["title"],
     required := ["title"] },
   { name := "setReminder",
     description := "Set a reminder for the user. Always requires a time.",
     properties := ["title", "delay_minutes"],
     required := ["title", "delay_minutes"] }]

/-- The part extracted from a successful Gemini response body at
`candidates[0].content.parts[0]`: a structured `functionCall`, free
`text`, or neither key. -/
inductive Part where
  | functionCall (a : Action)
  | text (t : String)
  | neither
deriving DecidableEq, Repr

/-- Outcome of the `httpx` POST to the Gemini endpoint, as the code
distinguishes outcomes.  `raised` is any exception thrown during the
request or while parsing the body (caught by the `except` clause);
`resp status hasCandidates part` is a completed response with its HTTP
status, whether the JSON body has a `candidates` key, and the attempt to
index out the first part (`.error ()` when that indexing itself raises,
e.g. on an empty candidate list). -/
inductive CapResp where
  | raised
  | resp (status : Nat) (hasCandidates : Bool) (part : Except Unit Part)
deriving Repr

/-- Classifies the capability outcomes the spec calls faults: the call
raised, the status is not 200, the body lacks `candidates`, indexing the
part raised, or the part carries neither a function call nor text. -/
def CapResp.isFailure : CapResp → Bool
  | .raised => true
  | .resp status hasCandidates part =>
    !(status == 200 && hasCandidates) ||
      (match part with
       | .error _ => true
       | .ok .neither => true
       | .ok _ => false)

/-- Result of `gemini_tool_call`: the parsed action it returns, plus
whether the function reached the network call at all (false only on the
missing-credential short circuit before `url` is even built). -/
structure GeminiOut where
  action : Action
  attemptedNetwork : Bool
deriving DecidableEq, Repr

/-- Builds the `{"name": "fallback", "args": {"reply": msg}}` value. -/
def fallbackAction (msg : String) : Action :=
  { name := "fallback", args := { reply := some msg } }

/-- The intent resolver `gemini_tool_call`, over the abstract capability
response.  With no API key it short-circuits to a fallback before any
network access; otherwise a 200 response with candidates yields the
function call or wraps free text, and every other shape (non-success
status, missing candidates, part with neither key, any exception) yields
a fixed apologetic fallback. -/
def gemini_tool_call (apiKey : Option String) (r : CapResp) : GeminiOut :=
  match apiKey with
  | none => { action := fallbackAction "Gemini API key is not set.", attemptedNetwork := false }
  | some _ =>
    match r with
    | .raised =>
      { action := fallbackAction "Sorry, an unexpected error occurred.", attemptedNetwork := true }
    | .resp status hasCandidates part =>
      if status == 200 && hasCandidates then
        match part with
        | .error _ =>
          { action := fallbackAction "Sorry, an unexpected error occurred.",
            attemptedNetwork := true }
        | .ok (.functionCall a) => { action := a, attemptedNetwork := true }
        | .ok (.text t) => { action := fallbackAction t, attemptedNetwork := true }
        | .ok .neither =>
          { action := fallbackAction "Sorry, there was an error processing the request.",
            attemptedNetwork := true }
      else
        { action := fallbackAction "Sorry, there was an error processing the request.",
          attemptedNetwork := true }

/-- The `/chat` executor step: dispatch the resolved action through
`tool_handlers`, or fall back to the `reply` argument of the action (or
the generic message).  An exception escaping a handler propagates. -/
def chat (now : Int) (a : Action) (s : Store) : Except PyErr (String × Store) :=
  match tool_handlers.lookup a.name with
  | some h => h now a.args s
  | none => .ok ((a.args.reply).getD "I\x27m not sure how to help with that.", s)

/-- The full `/chat` pipeline: resolve the utterance (abstracted to its
capability outcome), then dispatch. -/
def chat_endpoint (now : Int) (apiKey : Option String) (r : CapResp) (s : Store) :
    Except PyErr (String × Store) :=
  chat now (gemini_tool_call apiKey r).action s

/-- The JSON shape `task_helper` produces for one task. -/
structure TaskOut where
  id : String
  title : String
  due : Option Int
  completed : Bool
deriving DecidableEq, Repr

/-- Helper `task_helper`: projects a task document to its wire shape,
stringifying the id. -/
def task_helper (t : Task) : TaskOut :=
  { id := toString t.id, title := t.title, due := t.due, completed := t.completed }

/-- Endpoint `/api/tasks`: all tasks, in store order, through
`task_helper`. -/
def get_tasks (s : Store) : List TaskOut :=
  s.tasks.map task_helper

/-- Endpoint `/api/due-reminders`: finds every reminder with
`at <= now` and `sent = False`, and — only when that list is nonempty —
issues one `update_many` setting `sent = True` on exactly the matched
ids, before returning the found (pre-update) documents. -/
def get_due_reminders (now : Int) (s : Store) : List Reminder × Store :=
  let due := s.reminders.filter (fun r => decide (r.atMs ≤ now) && !r.sent)
  if due.isEmpty then (due, s)
  else
    let ids := due.map (fun r => r.id)
    (due,
     { s with reminders :=
        s.reminders.map (fun r => if ids.contains r.id then { r with sent := true } else r) })

/-! Theorems. -/

/-- The returned component of one sweep is the filtered due list,
whichever branch the mutation takes. -/
theorem get_due_fst (now : Int) (s : Store) :
    (get_due_reminders now s).1 =
      s.reminders.filter (fun r => decide (r.atMs ≤ now) && !r.sent) := by
  simp only [get_due_reminders]
  split <;> rfl

/-- C9: every action name declared in the `tools` schema has an entry in
the `tool_handlers` dispatch table and vice versa, in the same order and
without duplicates — a one-to-one static coverage invariant. -/
theorem schema_matches_dispatch_table :
    tools.map (fun t => t.name) = tool_handlers.map (fun h => h.1) ∧
    (tools.map (fun t => t.name)).Nodup := by
  constructor
  · rfl
  · decide

/-- C10: when the resolver yields a dispatchable action whose args
mapping lacks a required key, the invoked handler raises `KeyError` by
direct indexing and `chat` propagates it instead of producing a reply:
the request faults. -/
theorem chat_missing_required_arg_faults (now : Int) (s : Store) :
    chat now { name := "addTask" } s = .error (.keyError "title") ∧
    chat now { name := "deleteTask" } s = .error (.keyError "title") ∧
    chat now { name := "setReminder", args := { title := some "x" } } s =
      .error (.keyError "delay_minutes") ∧
    chat now { name := "setReminder", args := { delay_minutes := some (Val.int 5) } } s =
      .error (.keyError "title") ∧
    chat_endpoint now (some "k")
        (.resp 200 true (.ok (.functionCall { name := "addTask" }))) s =
      .error (.keyError "title") := by
  refine ⟨rfl, rfl, rfl, rfl, rfl⟩

/-- C6: `handle_add_task` always succeeds for any provided title
(including empty or whitespace), and afterwards `/api/tasks` lists
exactly one more task, the new one carrying the given title with
`completed = false` and `due = null`. -/
theorem addTask_appends_one_task (T : String) (s : Store) :
    ∃ s2, handle_add_task { title := some T } s = .ok (addedReply T, s2) ∧
      get_tasks s2 = get_tasks s ++
        [{ id := toString s.nextTaskId, title := T, due := none, completed := false }] ∧
      (get_tasks s2).length = (get_tasks s).length + 1 := by
  refine ⟨_, rfl, ?_, ?_⟩
  · simp [get_tasks, task_helper]
  · simp [get_tasks]

/-- C7: deleting with a keyword that matches no stored task title leaves
the store untouched and returns the could-not-find reply, so
`/api/tasks` is unchanged. -/
theorem deleteTask_absent_is_noop (K : String) (s : Store)
    (h : ∀ t ∈ s.tasks, titleMatches K t.title = false) :
    handle_delete_task { title := some K } s = .ok (notFoundReply K, s) ∧
    get_tasks s = get_tasks s := by
  refine ⟨?_, rfl⟩
  have hany : s.tasks.any (fun t => titleMatches K t.title) = false := by
    simp only [List.any_eq_false]
    intro t ht
    simp [h t ht]
  simp [handle_delete_task, hany]

/-- Witness for C7 at a concrete keyword and store. -/
theorem deleteTask_absent_is_noop_witness :
    handle_delete_task { title := some "zzz" }
        { tasks := [{ id := 0, title := "Buy milk", due := none, completed := false }],
          reminders := [], nextTaskId := 1, nextReminderId := 0 } =
      .ok (notFoundReply "zzz",
        { tasks := [{ id := 0, title := "Buy milk", due := none, completed := false }],
          reminders := [], nextTaskId := 1, nextReminderId := 0 }) :=
  (deleteTask_absent_is_noop "zzz"
    { tasks := [{ id := 0, title := "Buy milk", due := none, completed := false }],
      reminders := [], nextTaskId := 1, nextReminderId := 0 } (by decide)).1

/-- C1: the intent resolver is total over faults — with no API key it
short-circuits to the capability-unavailable fallback without reaching
the network, and with a key every failing capability outcome
(unreachable, non-success status, malformed body, raised exception)
yields a fallback action carrying one of the two fixed apologetic
messages. -/
theorem gemini_resolver_never_faults (key : Option String) (r : CapResp) :
    (key = none →
      gemini_tool_call key r =
        { action := fallbackAction "Gemini API key is not set.",
          attemptedNetwork := false }) ∧
    (∀ k, key = some k → r.isFailure = true →
      (gemini_tool_call key r).action.name = "fallback" ∧
      ((gemini_tool_call key r).action.args.reply =
          some "Sorry, an unexpected error occurred." ∨
        (gemini_tool_call key r).action.args.reply =
          some "Sorry, there was an error processing the request.")) := by
  constructor
  · rintro rfl
    rfl
  · rintro k rfl hf
    cases r with
    | raised => exact ⟨rfl, Or.inl rfl⟩
    | resp st hc p =>
      cases hb : (st == 200 && hc) with
      | false =>
        refine ⟨?_, Or.inr ?_⟩ <;> simp [gemini_tool_call, hb, fallbackAction]
      | true =>
        cases p with
        | error u =>
          refine ⟨?_, Or.inl ?_⟩ <;> simp [gemini_tool_call, hb, fallbackAction]
        | ok pt =>
          cases pt with
          | functionCall a => simp [CapResp.isFailure, hb] at hf
          | text t => simp [CapResp.isFailure, hb] at hf
          | neither =>
            refine ⟨?_, Or.inr ?_⟩ <;> simp [gemini_tool_call, hb, fallbackAction]

/-- Witness for C1: the no-key short circuit and a concrete raised
transport fault, both at concrete inputs. -/
theorem gemini_resolver_never_faults_witness :
    gemini_tool_call none CapResp.raised =
      { action := fallbackAction "Gemini API key is not set.",
        attemptedNetwork := false } ∧
    (gemini_tool_call (some "k") CapResp.raised).action.name = "fallback" ∧
    ((gemini_tool_call (some "k") CapResp.raised).action.args.reply =
        some "Sorry, an unexpected error occurred." ∨
      (gemini_tool_call (some "k") CapResp.raised).action.args.reply =
        some "Sorry, there was an error processing the request.") :=
  ⟨(gemini_resolver_never_faults none CapResp.raised).1 rfl,
   (gemini_resolver_never_faults (some "k") CapResp.raised).2 "k" rfl rfl⟩

/-- C5: `handle_set_reminder` inserts a reminder with `sent = false` and
absolute trigger time `now + delay * 60000` (epoch milliseconds) for any
coercible delay value, with no range validation — a negative delay gives
an already-due trigger time — and the reply echoes the title and the raw
delay. -/
theorem setReminder_inserts_absolute_time (now : Int) (T : String) (dv : Val) (d : Int)
    (s : Store) (hd : pyInt dv = .ok d) :
    handle_set_reminder now { title := some T, delay_minutes := some dv } s =
      .ok (reminderReply T dv,
        { s with
          reminders := s.reminders ++
            [{ id := s.nextReminderId, title := T, atMs := now + d * 60000, sent := false }],
          nextReminderId := s.nextReminderId + 1 }) ∧
    (d < 0 → now + d * 60000 < now) := by
  constructor
  · simp [handle_set_reminder, hd]
  · intro hneg
    omega

/-- Witness for C5: a negative string delay is coerced and produces an
already-due reminder. -/
theorem setReminder_inserts_absolute_time_witness :
    handle_set_reminder 1000 { title := some "Call mom", delay_minutes := some (Val.str "-5") }
        { tasks := [], reminders := [], nextTaskId := 0, nextReminderId := 0 } =
      .ok (reminderReply "Call mom" (Val.str "-5"),
        { tasks := [],
          reminders := [{ id := 0, title := "Call mom", atMs := 1000 + (-5) * 60000, sent := false }],
          nextTaskId := 0, nextReminderId := 1 }) ∧
    (1000 : Int) + (-5) * 60000 < 1000 := by
  have h := setReminder_inserts_absolute_time 1000 "Call mom" (Val.str "-5") (-5)
    { tasks := [], reminders := [], nextTaskId := 0, nextReminderId := 0 } (by rfl)
  exact ⟨h.1, h.2 (by decide)⟩

/-- C8: for any action whose name is outside the dispatch table, `chat`
mutates nothing and replies with the reply argument of the action when
present, or the generic message when absent; composed with the resolver,
free text from the capability is surfaced unchanged. -/
theorem chat_unrecognized_passthrough (now : Int) (a : Action) (s : Store) (k t : String)
    (h : tool_handlers.lookup a.name = none) :
    chat now a s = .ok ((a.args.reply).getD "I\x27m not sure how to help with that.", s) ∧
    chat_endpoint now (some k) (.resp 200 true (.ok (.text t))) s = .ok (t, s) := by
  constructor
  · simp [chat, h]
  · rfl

/-- Witness for C8: a fallback action with free text "Hello" and one
unrecognized name without a reply argument, at concrete stores. -/
theorem chat_unrecognized_passthrough_witness :
    chat 0 { name := "fallback", args := { reply := some "Hello" } }
        { tasks := [], reminders := [], nextTaskId := 0, nextReminderId := 0 } =
      .ok ("Hello", { tasks := [], reminders := [], nextTaskId := 0, nextReminderId := 0 }) ∧
    chat_endpoint 0 (some "k") (.resp 200 true (.ok (.text "Hello")))
        { tasks := [], reminders := [], nextTaskId := 0, nextReminderId := 0 } =
      .ok ("Hello", { tasks := [], reminders := [], nextTaskId := 0, nextReminderId := 0 }) ∧
    chat 0 { name := "doesNotExist" }
        { tasks := [], reminders := [], nextTaskId := 0, nextReminderId := 0 } =
      .ok ("I\x27m not sure how to help with that.",
        { tasks := [], reminders := [], nextTaskId := 0, nextReminderId := 0 }) := by
  have h1 := chat_unrecognized_passthrough 0
    { name := "fallback", args := { reply := some "Hello" } }
    { tasks := [], reminders := [], nextTaskId := 0, nextReminderId := 0 } "k" "Hello" rfl
  have h2 := chat_unrecognized_passthrough 0 { name := "doesNotExist" }
    { tasks := [], reminders := [], nextTaskId := 0, nextReminderId := 0 } "k" "Hello" rfl
  exact ⟨h1.1, h1.2, h2.1⟩

/-- Splits a list at the first element satisfying `p`, characterizing
`deleteFirst` on lists with a match. -/
theorem deleteFirst_split (p : α → Bool) (l : List α) (h : l.any p = true) :
    ∃ pre x post, l = pre ++ x :: post ∧ (∀ y ∈ pre, p y = false) ∧ p x = true ∧
      deleteFirst p l = pre ++ post := by
  induction l with
  | nil => simp at h
  | cons a as ih =>
    cases ha : p a with
    | true =>
      exact ⟨[], a, as, rfl, by simp, ha, by simp [deleteFirst, ha]⟩
    | false =>
      have h' : as.any p = true := by
        simp only [List.any_cons, ha, Bool.false_or] at h
        exact h
      obtain ⟨pre, x, post, hsplit, hpre, hx, hdel⟩ := ih h'
      refine ⟨a :: pre, x, post, by simp [hsplit], ?_, hx, ?_⟩
      · intro y hy
        rcases List.mem_cons.mp hy with rfl | hy
        · exact ha
        · exact hpre y hy
      · simp [deleteFirst, ha, hdel]

/-- C4: `handle_delete_task` matches case-insensitively by substring,
not exact equality; with no matching title it deletes nothing, with at
least one match it removes exactly the first matching task and nothing
else, and the two replies are distinct. -/
theorem deleteTask_removes_first_match (kw : String) (s : Store) :
    ((∀ t ∈ s.tasks, titleMatches kw t.title = false) →
      handle_delete_task { title := some kw } s = .ok (notFoundReply kw, s)) ∧
    ((∃ t ∈ s.tasks, titleMatches kw t.title = true) →
      ∃ pre tsk post,
        s.tasks = pre ++ tsk :: post ∧
        titleMatches kw tsk.title = true ∧
        (∀ t ∈ pre, titleMatches kw t.title = false) ∧
        handle_delete_task { title := some kw } s =
          .ok (deletedReply kw, { s with tasks := pre ++ post })) ∧
    deletedReply kw ≠ notFoundReply kw := by
  refine ⟨?_, ?_, ?_⟩
  · intro h
    have hany : s.tasks.any (fun t => titleMatches kw t.title) = false := by
      rw [List.any_eq_false]
      intro t ht
      simp [h t ht]
    simp [handle_delete_task, hany]
  · intro h
    have hany : s.tasks.any (fun t => titleMatches kw t.title) = true := by
      rw [List.any_eq_true]
      obtain ⟨t, ht, hm⟩ := h
      exact ⟨t, ht, hm⟩
    obtain ⟨pre, x, post, hsplit, hpre, hx, hdel⟩ :=
      deleteFirst_split (fun t => titleMatches kw t.title) s.tasks hany
    exact ⟨pre, x, post, hsplit, hx, hpre, by simp [handle_delete_task, hany, hdel]⟩
  · intro hbad
    have hlen := congrArg String.length hbad
    simp only [deletedReply, notFoundReply, String.length_append] at hlen
    have h1 : ("Deleted task matching \x27" : String).length = 23 := rfl
    have h2 : ("Couldn\x27t find a task matching \x27" : String).length = 31 := rfl
    rw [h1, h2] at hlen
    omega

/-- Witness for C4: an absent keyword deletes nothing, and the keyword
"milk" case-insensitively matches and removes only the first of two
matching tasks. -/
theorem deleteTask_removes_first_match_witness :
    handle_delete_task { title := some "qq" }
        { tasks := [{ id := 0, title := "Buy milk", due := none, completed := false }],
          reminders := [], nextTaskId := 1, nextReminderId := 0 } =
      .ok (notFoundReply "qq",
        { tasks := [{ id := 0, title := "Buy milk", due := none, completed := false }],
          reminders := [], nextTaskId := 1, nextReminderId := 0 }) ∧
    (∃ pre tsk post,
      ({ tasks := [{ id := 0, title := "pay rent", due := none, completed := false },
                   { id := 1, title := "Buy MILK", due := none, completed := false },
                   { id := 2, title := "milk the cow", due := none, completed := false }],
         reminders := [], nextTaskId := 3, nextReminderId := 0 } : Store).tasks =
        pre ++ tsk :: post ∧
      titleMatches "milk" tsk.title = true ∧
      (∀ t ∈ pre, titleMatches "milk" t.title = false) ∧
      handle_delete_task { title := some "milk" }
          { tasks := [{ id := 0, title := "pay rent", due := none, completed := false },
                      { id := 1, title := "Buy MILK", due := none, completed := false },
                      { id := 2, title := "milk the cow", due := none, completed := false }],
            reminders := [], nextTaskId := 3, nextReminderId := 0 } =
        .ok (deletedReply "milk",
          { tasks := pre ++ post,
            reminders := [], nextTaskId := 3, nextReminderId := 0 })) := by
  constructor
  · exact (deleteTask_removes_first_match "qq"
      { tasks := [{ id := 0, title := "Buy milk", due := none, completed := false }],
        reminders := [], nextTaskId := 1, nextReminderId := 0 }).1 (by decide)
  · exact (deleteTask_removes_first_match "milk"
      { tasks := [{ id := 0, title := "pay rent", due := none, completed := false },
                  { id := 1, title := "Buy MILK", due := none, completed := false },
                  { id := 2, title := "milk the cow", due := none, completed := false }],
        reminders := [], nextTaskId := 3, nextReminderId := 0 }).2.1 (by decide)

/-- C3: one sweep invocation returns exactly the reminders that are
unsent and due at query time, the resulting store marks precisely those
as sent (leaving every other reminder untouched), and when nothing is
due the store is returned unchanged. -/
theorem sweep_returns_exactly_due (now : Int) (s : Store)
    (hids : (s.reminders.map (fun r => r.id)).Nodup) :
    (∀ r, r ∈ (get_due_reminders now s).1 ↔
      (r ∈ s.reminders ∧ r.atMs ≤ now ∧ r.sent = false)) ∧
    ((get_due_reminders now s).2.reminders =
      s.reminders.map (fun r =>
        if r.atMs ≤ now ∧ r.sent = false then { r with sent := true } else r)) ∧
    ((∀ r ∈ s.reminders, ¬(r.atMs ≤ now ∧ r.sent = false)) →
      (get_due_reminders now s).2 = s) := by
  have hmem : ∀ r : Reminder,
      (decide (r.atMs ≤ now) && !r.sent) = true ↔ (r.atMs ≤ now ∧ r.sent = false) := by
    intro r
    simp
  have hfst : (get_due_reminders now s).1 =
      s.reminders.filter (fun r => decide (r.atMs ≤ now) && !r.sent) := by
    simp only [get_due_reminders]
    split <;> rfl
  refine ⟨?_, ?_, ?_⟩
  · intro r
    rw [hfst, List.mem_filter]
    exact and_congr_right fun _ => hmem r
  · by_cases hdue :
      (s.reminders.filter (fun r => decide (r.atMs ≤ now) && !r.sent)).isEmpty = true
    · have hnil := List.isEmpty_iff.mp hdue
      have hno : ∀ r ∈ s.reminders, ¬(r.atMs ≤ now ∧ r.sent = false) := by
        intro r hr hc
        exact List.filter_eq_nil_iff.mp hnil r hr ((hmem r).mpr hc)
      have hsnd : (get_due_reminders now s).2 = s := by
        simp only [get_due_reminders]
        rw [if_pos hdue]
      rw [hsnd]
      have hmap : s.reminders.map (fun r =>
          if r.atMs ≤ now ∧ r.sent = false then { r with sent := true } else r) =
          s.reminders.map (fun r => r) := by
        apply List.map_congr_left
        intro r hr
        simp [if_neg (hno r hr)]
      rw [hmap, List.map_id_fun']
      rfl
    · have hsnd : (get_due_reminders now s).2.reminders =
          s.reminders.map (fun r =>
            if ((s.reminders.filter (fun x => decide (x.atMs ≤ now) && !x.sent)).map
                  (fun x => x.id)).contains r.id
            then { r with sent := true } else r) := by
        simp only [get_due_reminders]
        rw [if_neg hdue]
      rw [hsnd]
      apply List.map_congr_left
      intro r hr
      have hiff :
          ((s.reminders.filter (fun x => decide (x.atMs ≤ now) && !x.sent)).map
              (fun x => x.id)).contains r.id = true ↔
            (r.atMs ≤ now ∧ r.sent = false) := by
        constructor
        · intro hc
          obtain ⟨r2, hr2mem, hid⟩ := List.mem_map.mp (List.elem_iff.mp hc)
          have hr2l := (List.mem_filter.mp hr2mem).1
          have hp2 := (List.mem_filter.mp hr2mem).2
          have heq : r2 = r := List.inj_on_of_nodup_map hids hr2l hr hid
          rw [heq] at hp2
          exact (hmem r).mp hp2
        · intro hc
          have hin : r ∈ s.reminders.filter (fun x => decide (x.atMs ≤ now) && !x.sent) :=
            List.mem_filter.mpr ⟨hr, (hmem r).mpr hc⟩
          exact List.elem_iff.mpr (List.mem_map.mpr ⟨r, hin, rfl⟩)
      exact if_congr hiff rfl rfl
  · intro hno
    have hfil : s.reminders.filter (fun r => decide (r.atMs ≤ now) && !r.sent) = [] :=
      List.filter_eq_nil_iff.mpr fun r hr hp => hno r hr ((hmem r).mp hp)
    simp [get_due_reminders, hfil]

/-- Witness for C3 at a concrete time and store, with the membership
characterization instanced at a concrete reminder. -/
theorem sweep_returns_exactly_due_witness :
    (({ id := 0, title := "a", atMs := 900, sent := false } : Reminder) ∈
      (get_due_reminders 1000
        { tasks := [],
          reminders := [{ id := 0, title := "a", atMs := 900, sent := false },
                        { id := 1, title := "b", atMs := 1100, sent := false },
                        { id := 2, title := "c", atMs := 800, sent := true }],
          nextTaskId := 0, nextReminderId := 3 }).1 ↔
      (({ id := 0, title := "a", atMs := 900, sent := false } : Reminder) ∈
        [({ id := 0, title := "a", atMs := 900, sent := false } : Reminder),
         { id := 1, title := "b", atMs := 1100, sent := false },
         { id := 2, title := "c", atMs := 800, sent := true }] ∧
        (900 : Int) ≤ 1000 ∧ false = false)) ∧
    (get_due_reminders 1000
        { tasks := [],
          reminders := [{ id := 0, title := "a", atMs := 900, sent := false },
                        { id := 1, title := "b", atMs := 1100, sent := false },
                        { id := 2, title := "c", atMs := 800, sent := true }],
          nextTaskId := 0, nextReminderId := 3 }).2.reminders =
      [({ id := 0, title := "a", atMs := 900, sent := false } : Reminder),
       { id := 1, title := "b", atMs := 1100, sent := false },
       { id := 2, title := "c", atMs := 800, sent := true }].map (fun r =>
          if r.atMs ≤ 1000 ∧ r.sent = false then { r with sent := true } else r) ∧
    (get_due_reminders 1000
        { tasks := [], reminders := [{ id := 5, title := "later", atMs := 2000, sent := false }],
          nextTaskId := 0, nextReminderId := 6 }).2 =
      { tasks := [], reminders := [{ id := 5, title := "later", atMs := 2000, sent := false }],
        nextTaskId := 0, nextReminderId := 6 } := by
  have h1 := sweep_returns_exactly_due 1000
    { tasks := [],
      reminders := [{ id := 0, title := "a", atMs := 900, sent := false },
                    { id := 1, title := "b", atMs := 1100, sent := false },
                    { id := 2, title := "c", atMs := 800, sent := true }],
      nextTaskId := 0, nextReminderId := 3 } (by decide)
  have h2 := sweep_returns_exactly_due 1000
    { tasks := [], reminders := [{ id := 5, title := "later", atMs := 2000, sent := false }],
      nextTaskId := 0, nextReminderId := 6 } (by decide)
  exact ⟨h1.1 { id := 0, title := "a", atMs := 900, sent := false }, h1.2.1,
    h2.2.2 (by decide)⟩

/-- C2: a reminder created with `delay_minutes = 0` at time `t` is
included in the first sweep run at any `t1 ≥ t`, that sweep flips its
`sent` flag to true, and a second sequential sweep (at any time `t2`)
does not include it again — at-most-once delivery. -/
theorem reminder_delivered_at_most_once (s : Store) (T : String) (t t1 t2 : Int)
    (hfresh : ∀ r ∈ s.reminders, r.id < s.nextReminderId)
    (ht : t ≤ t1) :
    ∃ s1,
      handle_set_reminder t { title := some T, delay_minutes := some (Val.int 0) } s =
        .ok (reminderReply T (Val.int 0), s1) ∧
      (∃ r ∈ (get_due_reminders t1 s1).1, r.id = s.nextReminderId) ∧
      (∃ r ∈ (get_due_reminders t1 s1).2.reminders, r.id = s.nextReminderId ∧ r.sent = true) ∧
      (∀ r ∈ (get_due_reminders t2 (get_due_reminders t1 s1).2).1,
        r.id ≠ s.nextReminderId) := by
  set rnew : Reminder :=
    { id := s.nextReminderId, title := T, atMs := t + 0 * 60000, sent := false } with hrnew
  set s1 : Store :=
    { s with reminders := s.reminders ++ [rnew], nextReminderId := s.nextReminderId + 1 }
    with hs1
  have hp1 : (decide (rnew.atMs ≤ t1) && !rnew.sent) = true := by
    simp [hrnew]
    omega
  have hmemdue : rnew ∈ s1.reminders.filter (fun r => decide (r.atMs ≤ t1) && !r.sent) :=
    List.mem_filter.mpr ⟨by simp [hs1], hp1⟩
  have hfst1 : (get_due_reminders t1 s1).1 =
      s1.reminders.filter (fun r => decide (r.atMs ≤ t1) && !r.sent) := by
    simp only [get_due_reminders]
    split <;> rfl
  have hne : ¬((s1.reminders.filter (fun r => decide (r.atMs ≤ t1) && !r.sent)).isEmpty = true) := by
    intro hempty
    rw [List.isEmpty_iff.mp hempty] at hmemdue
    exact absurd hmemdue (List.not_mem_nil rnew)
  have hsnd1 : (get_due_reminders t1 s1).2.reminders =
      s1.reminders.map (fun r =>
        if ((s1.reminders.filter (fun x => decide (x.atMs ≤ t1) && !x.sent)).map
              (fun x => x.id)).contains r.id
        then { r with sent := true } else r) := by
    simp only [get_due_reminders]
    rw [if_neg hne]
  have hcont : ((s1.reminders.filter (fun x => decide (x.atMs ≤ t1) && !x.sent)).map
      (fun x => x.id)).contains rnew.id = true :=
    List.elem_iff.mpr (List.mem_map.mpr ⟨rnew, hmemdue, rfl⟩)
  refine ⟨s1, rfl, ?_, ?_, ?_⟩
  · exact ⟨rnew, by rw [hfst1]; exact hmemdue, rfl⟩
  · refine ⟨{ rnew with sent := true }, ?_, rfl, rfl⟩
    rw [hsnd1]
    refine List.mem_map.mpr ⟨rnew, by simp [hs1], ?_⟩
    rw [if_pos hcont]
  · intro r hr
    rw [get_due_fst t2 (get_due_reminders t1 s1).2] at hr
    obtain ⟨hrmem, hrp⟩ := List.mem_filter.mp hr
    have hrsent : r.sent = false := by
      simp only [Bool.and_eq_true, Bool.not_eq_true'] at hrp
      exact hrp.2
    rw [hsnd1] at hrmem
    obtain ⟨a, ha, hmark⟩ := List.mem_map.mp hrmem
    have ha2 : a ∈ s.reminders ∨ a = rnew := by
      rcases List.mem_append.mp ha with h | h
      · exact Or.inl h
      · exact Or.inr (List.mem_singleton.mp h)
    rcases ha2 with hold | hnew2
    · have hid : r.id = a.id := by
        rw [← hmark]
        split <;> rfl
      have := hfresh a hold
      omega
    · rw [hnew2, if_pos hcont] at hmark
      rw [← hmark] at hrsent
      simp at hrsent

/-- Witness for C2: an immediate reminder on the empty store, created at
time 0, delivered by a sweep at time 0 and absent from a second sweep at
time 7. -/
theorem reminder_delivered_at_most_once_witness :
    ∃ s1,
      handle_set_reminder 0 { title := some "now", delay_minutes := some (Val.int 0) }
          { tasks := [], reminders := [], nextTaskId := 0, nextReminderId := 0 } =
        .ok (reminderReply "now" (Val.int 0), s1) ∧
      (∃ r ∈ (get_due_reminders 0 s1).1, r.id = 0) ∧
      (∃ r ∈ (get_due_reminders 0 s1).2.reminders, r.id = 0 ∧ r.sent = true) ∧
      (∀ r ∈ (get_due_reminders 7 (get_due_reminders 0 s1).2).1, r.id ≠ 0) :=
  reminder_delivered_at_most_once
    { tasks := [], reminders := [], nextTaskId := 0, nextReminderId := 0 }
    "now" 0 0 7 (by simp) (by decide)

end TodoBackend
